import Mathlib

/-!
# Verification of the group-order cost-distribution calculator

Shallow embedding of the distribution logic of the `group-order-adjuster`
browser extension.  JavaScript numbers are modelled as exact rationals
(`ℚ`); `parseFloat(x.toFixed(2))` is modelled by `round2` (round half up
at two decimals, matching the ECMAScript `toFixed` tie-breaking rule
"pick the larger n").  Object key enumeration (`Object.keys`) is
modelled by association lists in insertion order.
-/

namespace GroupOrder

/-- `parseFloat(x.toFixed(2))`: round to two decimal places, half up. -/
def round2 (x : ℚ) : ℚ := (round (100 * x) : ℤ) / 100

/-- Extension settings relevant to the calculator.  `none` models a
`dailyBudget` that is `undefined` or `null`. -/
structure Settings where
  dailyBudget : Option ℚ
deriving DecidableEq

/-- Content script budget resolution:
`(settings.dailyBudget !== undefined && settings.dailyBudget !== null) ? settings.dailyBudget : 14`. -/
def resolveBudget (s : Settings) : ℚ := s.dailyBudget.getD 14

/-- Background script budget resolution:
`settings.dailyBudget || DEFAULT_SETTINGS.dailyBudget` — a *falsy* test,
so the value `0` also falls back to the default `14`. -/
def resolveBudgetFalsy (s : Settings) : ℚ :=
  match s.dailyBudget with
  | none => 14
  | some q => if q = 0 then 14 else q

/-- Parsed order data handed to the calculator: participant name →
individual order amount (in `Object.keys` enumeration order), plus the
shared fee totals. -/
structure OrderData where
  people : List (String × ℚ)
  delivery : ℚ
  service : ℚ
  discount : ℚ
deriving DecidableEq

/-- `orderCreatorPatterns = ['you', 'yu', 'me', 'myself']`. -/
def orderCreatorPatterns : List String := ["you", "yu", "me", "myself"]

/-- `orderCreatorPatterns.some(pattern => name.toLowerCase().includes(pattern))`. -/
def nameMatchesCreator (name : String) : Bool :=
  orderCreatorPatterns.any fun pat => decide (pat.toList <:+: name.toLower.toList)

/-- The `for … of participantNames` loop with `break`: first name that
matches a creator pattern. -/
def findOrderCreator (names : List String) : Option String :=
  names.find? nameMatchesCreator

/-- The per-participant object stored in `participantDetails[name]`
during Step 1: all monetary fields pass through
`parseFloat((…).toFixed(2))`. -/
structure Detail where
  individualOrder : ℚ
  sharedCosts : ℚ
  totalCost : ℚ
  budgetUsage : ℚ
  extraBudget : ℚ
  overBudget : ℚ
  isOrderCreator : Bool
deriving DecidableEq

/-- Step 1 of `calculateDistribution` for one participant. -/
def detailOf (budget spp : ℚ) (creator : Option String) (pa : String × ℚ) : Detail :=
  { individualOrder := round2 pa.2
  , sharedCosts := round2 spp
  , totalCost := round2 (pa.2 + spp)
  , budgetUsage := round2 (min (pa.2 + spp) budget)
  , extraBudget := round2 (max 0 (budget - (pa.2 + spp)))
  , overBudget := round2 (max 0 (pa.2 + spp - budget))
  , isOrderCreator := decide (creator = some pa.1) }

/-- The entry stored in `finalPayments[name]`: the spread of the Step 1
detail plus the Step 2 fields. -/
structure ParticipantResult extends Detail where
  budgetHelpReceived : ℚ
  finalPayment : ℚ
  status : String
deriving DecidableEq

/-- Step 2 of `calculateDistribution` for one participant.  Note that
the branch condition and the proportion use `details.overBudget`, the
*rounded* value stored in Step 1, while `totalExtraBudget` (`E`) and
`totalOverBudget` (`D`) are the unrounded accumulators. -/
def step2Result (E D : ℚ) (d : Detail) : ParticipantResult :=
  if 0 < d.overBudget then
    let proportionOfOverBudget := if 0 < D then d.overBudget / D else 0
    let budgetHelpReceived := min d.overBudget (E * proportionOfOverBudget)
    let finalPayment := max 0 (d.overBudget - budgetHelpReceived)
    { toDetail := d
    , budgetHelpReceived := round2 budgetHelpReceived
    , finalPayment := round2 finalPayment
    , status := if 0 < finalPayment then "pays" else "covered" }
  else
    { toDetail := d
    , budgetHelpReceived := 0
    , finalPayment := 0
    , status := if 0 < d.extraBudget then "helps_others" else "exact" }

/-- The accumulator `totalExtraBudget`: unrounded `extraBudget` values,
added only when positive (`if (extraBudget > 0)`). -/
def totalExtraOf (budget spp : ℚ) (people : List (String × ℚ)) : ℚ :=
  (people.map fun pa =>
    let e := max 0 (budget - (pa.2 + spp)); if 0 < e then e else 0).sum

/-- The accumulator `totalOverBudget`: unrounded `overBudget` values,
added only when positive (`if (overBudget > 0)`). -/
def totalOverOf (budget spp : ℚ) (people : List (String × ℚ)) : ℚ :=
  (people.map fun pa =>
    let o := max 0 (pa.2 + spp - budget); if 0 < o then o else 0).sum

/-- The `breakdown` object of the returned result; its fields are
reported without any rounding. -/
structure Breakdown where
  orderSubtotal : ℚ
  delivery : ℚ
  service : ℚ
  discount : ℚ
  grandTotal : ℚ
  totalBudget : ℚ
  sharedCostsTotal : ℚ
  sharedCostsPerPerson : ℚ
  totalExtraBudget : ℚ
  totalOverBudget : ℚ
  participantCount : ℕ
deriving DecidableEq

/-- The value returned by `calculateDistribution`. -/
structure DistributionResult where
  results : List (String × ParticipantResult)
  withinBudget : Bool
  orderCreator : Option String
  breakdown : Breakdown
deriving DecidableEq

/-- Embedding of the content script's `calculateDistribution(orderData, settings)`. -/
def calculateDistribution (od : OrderData) (s : Settings) : DistributionResult :=
  let budget := resolveBudget s
  let n := od.people.length
  let orderSubtotal := (od.people.map Prod.snd).sum
  let grandTotal := orderSubtotal + od.delivery + od.service + od.discount
  let totalCompanyBudget := budget * n
  let creator := findOrderCreator (od.people.map Prod.fst)
  let sct := od.delivery + od.service + od.discount
  let spp := sct / n
  let E := totalExtraOf budget spp od.people
  let D := totalOverOf budget spp od.people
  { results := od.people.map fun pa => (pa.1, step2Result E D (detailOf budget spp creator pa))
  , withinBudget := decide (grandTotal ≤ totalCompanyBudget)
  , orderCreator := creator
  , breakdown :=
    { orderSubtotal := orderSubtotal
    , delivery := od.delivery
    , service := od.service
    , discount := od.discount
    , grandTotal := grandTotal
    , totalBudget := totalCompanyBudget
    , sharedCostsTotal := sct
    , sharedCostsPerPerson := spp
    , totalExtraBudget := E
    , totalOverBudget := D
    , participantCount := n } }

/-- Embedding of the content script's `calculateAlternativeDistribution`:
the secondary, "split costs proportionally after budget" policy. -/
def calculateAlternativeDistribution (od : OrderData) (s : Settings) : List (String × ℚ) :=
  let budget := resolveBudget s
  let n := od.people.length
  let orderSubtotal := (od.people.map Prod.snd).sum
  let grandTotal := orderSubtotal + od.delivery + od.service + od.discount
  let totalBudget := budget * n
  if grandTotal ≤ totalBudget then
    od.people.map fun pa => (pa.1, (0 : ℚ))
  else
    let excessAmount := grandTotal - totalBudget
    let extraFeesTotal := od.delivery + od.service
    let extraPerPerson := extraFeesTotal / n
    let base := od.people.map fun pa =>
      let total := pa.2 + extraPerPerson +
        (if od.discount ≠ 0 ∧ 0 < orderSubtotal then pa.2 / orderSubtotal * od.discount else 0)
      (pa.1, round2 (max 0 (total - budget)))
    let participantTotal := (base.map Prod.snd).sum
    let remaining := excessAmount - participantTotal
    if 0 < remaining then base ++ [("You (Order Creator)", round2 remaining)] else base

/-- The `breakdown` object returned by the background script's
`calculateOrderDistribution`. -/
structure BgBreakdown where
  orderSubtotal : ℚ
  delivery : ℚ
  service : ℚ
  discount : ℚ
  grandTotal : ℚ
  totalBudget : ℚ
  extraForOwner : ℚ
  participantCount : ℕ
deriving DecidableEq

/-- The value returned by the background script's `calculateOrderDistribution`. -/
structure BgResult where
  results : List (String × ℚ)
  breakdown : BgBreakdown
deriving DecidableEq

/-- Embedding of the background script's `calculateOrderDistribution(orderData, settings)`.
Note the budget resolution is the falsy test `settings.dailyBudget || 14`. -/
def calculateOrderDistribution (od : OrderData) (s : Settings) : BgResult :=
  let budget := resolveBudgetFalsy s
  let extraFeesTotal := od.delivery + od.service
  let n := od.people.length
  let extraPerPerson := if 0 < n then extraFeesTotal / n else 0
  let orderSubtotal := (od.people.map Prod.snd).sum
  let baseResults := od.people.map fun pa =>
    let total := pa.2 + extraPerPerson +
      (if od.discount ≠ 0 ∧ 0 < orderSubtotal then pa.2 / orderSubtotal * od.discount else 0)
    (pa.1, round2 (max 0 (total - budget)))
  let grandTotal := orderSubtotal + extraFeesTotal + od.discount
  let totalBudget := budget * n
  let extraForOwner := max 0 (grandTotal - totalBudget)
  let results :=
    if 0 < extraForOwner then baseResults ++ [("You (Order Owner)", round2 extraForOwner)]
    else baseResults
  { results := results
  , breakdown :=
    { orderSubtotal := orderSubtotal
    , delivery := od.delivery
    , service := od.service
    , discount := od.discount
    , grandTotal := grandTotal
    , totalBudget := totalBudget
    , extraForOwner := extraForOwner
    , participantCount := n } }

/-! ## Division-checked variants

The JavaScript `/` operator yields `NaN` or `±Infinity` when the
denominator is `0`.  `checkedDiv` models a division that *fails* instead
of producing such a value; the `…Checked` clones of the calculators
perform every division of the original through `checkedDiv`, preserving
the source's guard structure, so that `…Checked = some …` states that no
division by zero is ever evaluated. -/

/-- Division that fails on a zero denominator instead of producing
`NaN`/`Infinity`. -/
def checkedDiv (a b : ℚ) : Option ℚ := if b = 0 then none else some (a / b)

/-- Sequence a list of optional computations (explicit `mapM` over `Option`). -/
def optionTraverse (f : α → Option β) : List α → Option (List β)
  | [] => some []
  | a :: t => (f a).bind fun b => (optionTraverse f t).map fun bs => b :: bs

/-- Division-checked Step 2: the division by `totalOverBudget` sits under
the source's own guard `totalOverBudget > 0 ? … : 0`. -/
def step2Checked (E D : ℚ) (d : Detail) : Option ParticipantResult :=
  if 0 < d.overBudget then
    (if 0 < D then checkedDiv d.overBudget D else some 0).map fun proportionOfOverBudget =>
      let budgetHelpReceived := min d.overBudget (E * proportionOfOverBudget)
      let finalPayment := max 0 (d.overBudget - budgetHelpReceived)
      { toDetail := d
      , budgetHelpReceived := round2 budgetHelpReceived
      , finalPayment := round2 finalPayment
      , status := if 0 < finalPayment then "pays" else "covered" }
  else
    some
      { toDetail := d
      , budgetHelpReceived := 0
      , finalPayment := 0
      , status := if 0 < d.extraBudget then "helps_others" else "exact" }

/-- Division-checked clone of `calculateDistribution`.  The division
`sharedCostsTotal / participantNames.length` is unguarded in the source,
so it goes through `checkedDiv` directly. -/
def calculateDistributionChecked (od : OrderData) (s : Settings) : Option DistributionResult :=
  let budget := resolveBudget s
  let n := od.people.length
  let orderSubtotal := (od.people.map Prod.snd).sum
  let grandTotal := orderSubtotal + od.delivery + od.service + od.discount
  let totalCompanyBudget := budget * n
  let creator := findOrderCreator (od.people.map Prod.fst)
  let sct := od.delivery + od.service + od.discount
  (checkedDiv sct n).bind fun spp =>
    let E := totalExtraOf budget spp od.people
    let D := totalOverOf budget spp od.people
    (optionTraverse
        (fun pa => (step2Checked E D (detailOf budget spp creator pa)).map fun r => (pa.1, r))
        od.people).map fun results =>
      { results := results
      , withinBudget := decide (grandTotal ≤ totalCompanyBudget)
      , orderCreator := creator
      , breakdown :=
        { orderSubtotal := orderSubtotal
        , delivery := od.delivery
        , service := od.service
        , discount := od.discount
        , grandTotal := grandTotal
        , totalBudget := totalCompanyBudget
        , sharedCostsTotal := sct
        , sharedCostsPerPerson := spp
        , totalExtraBudget := E
        , totalOverBudget := D
        , participantCount := n } }

/-- Division-checked clone of the background `calculateOrderDistribution`.
Both of its divisions sit under source guards
(`participantNames.length > 0 ? … : 0` and `discount !== 0 && orderSubtotal > 0`). -/
def calculateOrderDistributionChecked (od : OrderData) (s : Settings) : Option BgResult :=
  let budget := resolveBudgetFalsy s
  let extraFeesTotal := od.delivery + od.service
  let n := od.people.length
  let orderSubtotal := (od.people.map Prod.snd).sum
  (if 0 < n then checkedDiv extraFeesTotal n else some 0).bind fun extraPerPerson =>
    (optionTraverse
        (fun pa =>
          (if od.discount ≠ 0 ∧ 0 < orderSubtotal then
              (checkedDiv pa.2 orderSubtotal).map fun r => r * od.discount
            else some 0).map fun discountShare =>
            (pa.1, round2 (max 0 (pa.2 + extraPerPerson + discountShare - budget))))
        od.people).map fun baseResults =>
      let grandTotal := orderSubtotal + extraFeesTotal + od.discount
      let totalBudget := budget * n
      let extraForOwner := max 0 (grandTotal - totalBudget)
      let results :=
        if 0 < extraForOwner then baseResults ++ [("You (Order Owner)", round2 extraForOwner)]
        else baseResults
      { results := results
      , breakdown :=
        { orderSubtotal := orderSubtotal
        , delivery := od.delivery
        , service := od.service
        , discount := od.discount
        , grandTotal := grandTotal
        , totalBudget := totalBudget
        , extraForOwner := extraForOwner
        , participantCount := n } }

/-! ## Input validation (`validateOrderData`) and the calculation pipeline -/

/-- A JavaScript value as seen by `validateOrderData`: a finite number,
`NaN`, `±Infinity`, or a value whose `typeof` is not `'number'`. -/
inductive JSVal where
  | num (q : ℚ)
  | nan
  | inf
  | negInf
  | notNum
deriving DecidableEq

/-- `typeof v === 'number'`. -/
def JSVal.isNumberType : JSVal → Bool
  | notNum => false
  | _ => true

/-- `isNaN(v)` for a number-typed value. -/
def JSVal.isNaNB : JSVal → Bool
  | nan => true
  | _ => false

/-- The JavaScript comparison `v < c` (false on `NaN`). -/
def JSVal.ltB (v : JSVal) (c : ℚ) : Bool :=
  match v with
  | num q => decide (q < c)
  | negInf => true
  | _ => false

/-- The JavaScript comparison `v > c` (false on `NaN`). -/
def JSVal.gtB (v : JSVal) (c : ℚ) : Bool :=
  match v with
  | num q => decide (c < q)
  | inf => true
  | _ => false

/-- The value is a finite, non-negative number. -/
def JSVal.isFiniteNonneg : JSVal → Bool
  | num q => decide (0 ≤ q)
  | _ => false

/-- Order data as parsed from the page, before validation: amounts are
arbitrary JavaScript values; a fee of `none` models an `undefined` field. -/
structure RawOrderData where
  people : List (String × JSVal)
  delivery : Option JSVal
  service : Option JSVal
  discount : Option JSVal
deriving DecidableEq

/-- The per-participant checks of `validateOrderData`, in source order:
name, then `typeof amount !== 'number' || isNaN(amount) || amount < 0`,
then `amount > 1000`. -/
def validateEntry (pa : String × JSVal) : Except String Unit :=
  if pa.1.trim.length = 0 then
    .error "Invalid participant name detected"
  else if !pa.2.isNumberType || pa.2.isNaNB || pa.2.ltB 0 then
    .error ("Invalid price data for participant " ++ pa.1)
  else if pa.2.gtB 1000 then
    .error ("Unusually high amount detected for " ++ pa.1)
  else
    .ok ()

/-- The `for (const [name, amount] of Object.entries(orderData.people))`
validation loop; the first failing entry throws. -/
def validatePeople : List (String × JSVal) → Except String Unit
  | [] => .ok ()
  | pa :: t =>
    match validateEntry pa with
    | .error e => .error e
    | .ok _ => validatePeople t

/-- The fee checks: `if (orderData[fee] !== undefined) { … }`. -/
def validateFee (v : Option JSVal) (label : String) : Except String Unit :=
  match v with
  | none => .ok ()
  | some w =>
    if !w.isNumberType || w.isNaNB then .error ("Invalid " ++ label ++ " fee data")
    else .ok ()

/-- Embedding of `validateOrderData`: participant-count checks, then the
per-participant loop, then the fee checks. -/
def validateOrderData (r : RawOrderData) : Except String Unit :=
  if r.people.length = 0 then .error "No participants found in the order"
  else if 50 < r.people.length then
    .error "Too many participants detected (>50). This may indicate a parsing error."
  else
    match validatePeople r.people with
    | .error e => .error e
    | .ok _ =>
      match validateFee r.delivery "delivery" with
      | .error e => .error e
      | .ok _ =>
        match validateFee r.service "service" with
        | .error e => .error e
        | .ok _ => validateFee r.discount "discount"

/-- Numeric reading of a validated JavaScript value. -/
def JSVal.toRat : JSVal → ℚ
  | num q => q
  | _ => 0

/-- Order data handed on to the calculator once validation has passed. -/
def RawOrderData.toOrderData (r : RawOrderData) : OrderData :=
  { people := r.people.map fun pa => (pa.1, pa.2.toRat)
  , delivery := (r.delivery.getD (.num 0)).toRat
  , service := (r.service.getD (.num 0)).toRat
  , discount := (r.discount.getD (.num 0)).toRat }

/-- The validation-then-calculation pipeline of `calculateAndDisplay`:
`parseOrderData` runs `validateOrderData` and throws on failure, so
`calculateDistribution` is only ever applied after validation passes
(`Except` short-circuits on `.error`). -/
def calculateAndDisplayCore (r : RawOrderData) (s : Settings) :
    Except String DistributionResult :=
  match validateOrderData r with
  | .error e => .error e
  | .ok _ =>
    if r.people.length = 0 then
      .error "No order data found on this page."
    else
      .ok (calculateDistribution r.toOrderData s)

/-! ## Re-entrancy model of `calculateAndDisplay` -/

/-- The content script's module-level mutable state touched by
`calculateAndDisplay`: the in-flight flag and the cached
`calculationResults`. -/
structure ContentState where
  isCalculating : Bool
  calculationResults : Option DistributionResult
deriving DecidableEq

/-- One invocation of `calculateAndDisplay`, modelled as a state
transition.  `parseResult` stands for the outcome of `parseOrderData`
(which may throw).  The source checks `isCalculating` first and throws
without touching any state; otherwise it sets the flag, runs, stores the
results on success, and the `finally` block clears the flag on every
path. -/
def calculateAndDisplayStep (parseResult : Except String OrderData) (s : Settings)
    (st : ContentState) : Except String DistributionResult × ContentState :=
  if st.isCalculating then
    (.error "Calculation already in progress", st)
  else
    match parseResult with
    | .error e => (.error e, { st with isCalculating := false })
    | .ok od =>
      if od.people.length = 0 then
        (.error "No order data found on this page.", { st with isCalculating := false })
      else
        let r := calculateDistribution od s
        (.ok r, { isCalculating := false, calculationResults := some r })

/-! ## Basic lemmas -/

/-- Rounding half up at two decimals overshoots by at most half a cent. -/
theorem round2_le (x : ℚ) : round2 x ≤ x + 1 / 200 := by
  unfold round2
  rw [round_eq]
  have h : ((⌊100 * x + 1 / 2⌋ : ℤ) : ℚ) ≤ 100 * x + 1 / 2 := Int.floor_le _
  linarith

/-- Rounding a non-negative amount stays non-negative. -/
theorem round2_nonneg {x : ℚ} (hx : 0 ≤ x) : 0 ≤ round2 x := by
  unfold round2
  rw [round_eq]
  have h : (0 : ℤ) ≤ ⌊100 * x + 1 / 2⌋ := Int.floor_nonneg.mpr (by linarith)
  positivity

/-- Step 2 copies the Step 1 detail object unchanged (the `...details` spread). -/
theorem step2Result_toDetail (E D : ℚ) (d : Detail) : (step2Result E D d).toDetail = d := by
  unfold step2Result
  split <;> rfl

/-- The `if (v > 0)` accumulation guard is the identity on `max 0 _` terms. -/
theorem if_pos_max (q : ℚ) : (if 0 < max 0 q then max 0 q else 0) = max 0 q := by
  rcases lt_or_eq_of_le (le_max_left 0 q) with h | h
  · rw [if_pos h]
  · rw [if_neg (by rw [← h]; exact lt_irrefl 0), ← h]

/-- First-match characterisation of `List.find?`. -/
theorem find?_first_match {p : α → Bool} {l : List α} {a : α} (h : l.find? p = some a) :
    ∃ l₁ l₂, l = l₁ ++ a :: l₂ ∧ ∀ x ∈ l₁, p x = false := by
  induction l with
  | nil => simp at h
  | cons b t ih =>
    by_cases hb : p b
    · rw [List.find?_cons_of_pos _ hb] at h
      obtain rfl : b = a := by injection h
      exact ⟨[], t, rfl, by simp⟩
    · rw [List.find?_cons_of_neg _ (by simpa using hb)] at h
      obtain ⟨l₁, l₂, rfl, hl₁⟩ := ih h
      refine ⟨b :: l₁, l₂, rfl, ?_⟩
      intro x hx
      rcases List.mem_cons.mp hx with rfl | hx
      · simpa using hb
      · exact hl₁ x hx

/-! ## Claim theorems -/

/-- Settings with an explicit zero daily budget. -/
def zeroBudgetSettings : Settings := ⟨some 0⟩

/-- A one-participant order with an individual amount of 10 and no fees. -/
def zeroBudgetOrder : OrderData := ⟨[("You", 10)], 0, 0, 0⟩

/-- C4: the claim demands that *both* entry points use a daily budget of
`0` authoritatively.  The content script's `calculateDistribution` does
(explicit `!== undefined && !== null` check), but the background
script's `calculateOrderDistribution` resolves the budget with the falsy
test `settings.dailyBudget || 14`, so a stored budget of `0` silently
falls back to `14`: with `dailyBudget = 0` and one participant owing 10,
the background reports an obligation of `0` (budget 14 absorbed it) and
a total budget of `14`, while the budget-0 semantics — honoured by the
content script on the same input — makes the participant over budget by
their full cost of `10`. -/
theorem c4_background_zero_budget_bug :
    resolveBudget zeroBudgetSettings = 0 ∧
    resolveBudgetFalsy zeroBudgetSettings = 14 ∧
    (calculateOrderDistribution zeroBudgetOrder zeroBudgetSettings).results = [("You", 0)] ∧
    (calculateOrderDistribution zeroBudgetOrder zeroBudgetSettings).breakdown.totalBudget = 14 ∧
    ((calculateDistribution zeroBudgetOrder zeroBudgetSettings).results.map fun e =>
      (e.1, e.2.overBudget, e.2.finalPayment)) = [("You", 10, 10)] ∧
    (calculateDistribution zeroBudgetOrder zeroBudgetSettings).breakdown.totalBudget = 0 := by
  refine ⟨rfl, by with_unfolding_all decide, by with_unfolding_all decide, by with_unfolding_all decide, by with_unfolding_all decide, by with_unfolding_all decide⟩

/-- C10: the results mapping returned by `calculateDistribution` has
exactly the participants of the input `people` mapping as keys, in
enumeration order — no participant dropped, no synthetic entry added —
and (by the `ParticipantResult` structure) every entry carries all ten
reported fields. -/
theorem c10_results_keys (od : OrderData) (s : Settings) :
    (calculateDistribution od s).results.map Prod.fst = od.people.map Prod.fst ∧
    (calculateDistribution od s).results.length = od.people.length ∧
    (calculateDistribution od s).breakdown.participantCount = od.people.length := by
  refine ⟨?_, ?_, rfl⟩
  · show (od.people.map _).map Prod.fst = od.people.map Prod.fst
    rw [List.map_map]
    rfl
  · show (od.people.map _).length = od.people.length
    exact List.length_map _ _

/-- Order with participants You, Bob, Carol. -/
def odYouBobCarol : OrderData := ⟨[("You", 1), ("Bob", 2), ("Carol", 3)], 0, 0, 0⟩

/-- C9: the order creator is found by scanning participant names in
enumeration order, case-insensitively, for the substrings
`you`, `yu`, `me`, `myself`; the first match wins; absence of a match
gives `none`; at most one result entry is flagged `isOrderCreator`; and
the two concrete scenarios of the claim behave as stated ("You" wins
among You/Bob/Carol in every position; Alice/Bob has no creator). -/
theorem c9_order_creator :
    (∀ od s,
      ((calculateDistribution od s).orderCreator = none ↔
        ∀ nm ∈ od.people.map Prod.fst, nameMatchesCreator nm = false) ∧
      (∀ c, (calculateDistribution od s).orderCreator = some c →
        nameMatchesCreator c = true ∧
        ∃ l₁ l₂, od.people.map Prod.fst = l₁ ++ c :: l₂ ∧
          ∀ nm ∈ l₁, nameMatchesCreator nm = false) ∧
      (∀ e₁ ∈ (calculateDistribution od s).results,
        ∀ e₂ ∈ (calculateDistribution od s).results,
        e₁.2.isOrderCreator = true → e₂.2.isOrderCreator = true → e₁.1 = e₂.1) ∧
      (∀ nm, nameMatchesCreator nm = true ↔
        ∃ pat ∈ orderCreatorPatterns, pat.toList <:+: nm.toLower.toList)) ∧
    (calculateDistribution odYouBobCarol ⟨some 14⟩).orderCreator = some "You" ∧
    findOrderCreator ["You", "Bob", "Carol"] = some "You" ∧
    findOrderCreator ["Bob", "You", "Carol"] = some "You" ∧
    findOrderCreator ["Bob", "Carol", "You"] = some "You" ∧
    findOrderCreator ["Alice", "Bob"] = none := by
  refine ⟨?_, by with_unfolding_all decide, by with_unfolding_all decide, by with_unfolding_all decide, by with_unfolding_all decide, by with_unfolding_all decide⟩
  intro od s
  refine ⟨?_, ?_, ?_, ?_⟩
  · show findOrderCreator _ = none ↔ _
    unfold findOrderCreator
    rw [List.find?_eq_none]
    simp
  · intro c hc
    replace hc : (od.people.map Prod.fst).find? nameMatchesCreator = some c := hc
    exact ⟨List.find?_some hc, find?_first_match hc⟩
  · intro e₁ h₁ e₂ h₂ hf₁ hf₂
    obtain ⟨pa₁, hpa₁, rfl⟩ := List.mem_map.mp h₁
    obtain ⟨pa₂, hpa₂, rfl⟩ := List.mem_map.mp h₂
    have g₁ : (step2Result _ _ (detailOf _ _ _ pa₁)).isOrderCreator = true := hf₁
    have g₂ : (step2Result _ _ (detailOf _ _ _ pa₂)).isOrderCreator = true := hf₂
    rw [show ∀ E D d, (step2Result E D d).isOrderCreator = d.isOrderCreator from
      fun E D d => congrArg Detail.isOrderCreator (step2Result_toDetail E D d)] at g₁ g₂
    have k₁ := of_decide_eq_true g₁
    have k₂ := of_decide_eq_true g₂
    have := k₁.symm.trans k₂
    exact (Option.some.injEq _ _ ▸ this : pa₁.1 = pa₂.1)
  · intro nm
    unfold nameMatchesCreator
    rw [List.any_eq_true]
    constructor
    · rintro ⟨pat, hp, hd⟩
      exact ⟨pat, hp, of_decide_eq_true hd⟩
    · rintro ⟨pat, hp, hd⟩
      exact ⟨pat, hp, decide_eq_true hd⟩

/-- Witness for C9: the first-match component applied at the concrete
You/Bob/Carol order, discharging the `orderCreator = some "You"`
hypothesis by evaluation. -/
theorem c9_order_creator_witness :
    (calculateDistribution odYouBobCarol ⟨some 14⟩).orderCreator = some "You" ∧
    (nameMatchesCreator "You" = true ∧
      ∃ l₁ l₂, odYouBobCarol.people.map Prod.fst = l₁ ++ "You" :: l₂ ∧
        ∀ nm ∈ l₁, nameMatchesCreator nm = false) :=
  ⟨by with_unfolding_all decide, (c9_order_creator.1 odYouBobCarol ⟨some 14⟩).2.1 "You" (by with_unfolding_all decide)⟩

/-- The Step 2 help formula applied to an `overBudget` value `ob`:
`min(ob, totalExtraBudget * (totalOverBudget > 0 ? ob / totalOverBudget : 0))`. -/
def helpFormula (E D ob : ℚ) : ℚ := min ob (E * (if 0 < D then ob / D else 0))

/-- The Step 2 final payment formula: `max(0, ob - budgetHelpReceived)`. -/
def paymentFormula (E D ob : ℚ) : ℚ := max 0 (ob - helpFormula E D ob)

/-- The results list of `calculateDistribution`, written through its own
breakdown fields. -/
theorem calculateDistribution_results (od : OrderData) (s : Settings) :
    (calculateDistribution od s).results =
      od.people.map fun pa =>
        (pa.1,
          step2Result (calculateDistribution od s).breakdown.totalExtraBudget
            (calculateDistribution od s).breakdown.totalOverBudget
            (detailOf (resolveBudget s)
              (calculateDistribution od s).breakdown.sharedCostsPerPerson
              (calculateDistribution od s).orderCreator pa)) := rfl

/-- Step 2, over-budget branch. -/
theorem step2Result_over (E D : ℚ) (d : Detail) (h : 0 < d.overBudget) :
    (step2Result E D d).budgetHelpReceived = round2 (helpFormula E D d.overBudget) ∧
    (step2Result E D d).finalPayment = round2 (paymentFormula E D d.overBudget) ∧
    (step2Result E D d).status =
      (if 0 < paymentFormula E D d.overBudget then "pays" else "covered") := by
  unfold step2Result helpFormula paymentFormula
  rw [if_pos h]
  exact ⟨rfl, rfl, rfl⟩

/-- Step 2, not-over-budget branch. -/
theorem step2Result_under (E D : ℚ) (d : Detail) (h : ¬0 < d.overBudget) :
    (step2Result E D d).budgetHelpReceived = 0 ∧
    (step2Result E D d).finalPayment = 0 ∧
    (step2Result E D d).status = (if 0 < d.extraBudget then "helps_others" else "exact") := by
  unfold step2Result
  rw [if_neg h]
  exact ⟨rfl, rfl, rfl⟩

/-- C1: Step 2 of `calculateDistribution` follows the specified formulas.
For every result entry `e`: if its `overBudget` field is positive, its
reported `budgetHelpReceived` and `finalPayment` are the 2-decimal
roundings of `min(overBudget, totalExtraBudget * overBudget / totalOverBudget)`
(proportion taken as `0` when `totalOverBudget = 0`) and of
`max(0, overBudget - budgetHelpReceived)`, with status `pays` exactly
when the computed final payment is positive and `covered` otherwise; if
its `overBudget` field is zero, help and payment are `0` and the status
is `helps_others` exactly when its `extraBudget` field is positive, else
`exact`. -/
theorem c1_step2_formula (od : OrderData) (s : Settings)
    (e : String × ParticipantResult) (he : e ∈ (calculateDistribution od s).results) :
    (0 < e.2.overBudget →
      e.2.budgetHelpReceived =
        round2 (helpFormula (calculateDistribution od s).breakdown.totalExtraBudget
          (calculateDistribution od s).breakdown.totalOverBudget e.2.overBudget) ∧
      e.2.finalPayment =
        round2 (paymentFormula (calculateDistribution od s).breakdown.totalExtraBudget
          (calculateDistribution od s).breakdown.totalOverBudget e.2.overBudget) ∧
      e.2.status =
        (if 0 < paymentFormula (calculateDistribution od s).breakdown.totalExtraBudget
            (calculateDistribution od s).breakdown.totalOverBudget e.2.overBudget
          then "pays" else "covered")) ∧
    (e.2.overBudget = 0 →
      e.2.budgetHelpReceived = 0 ∧
      e.2.finalPayment = 0 ∧
      e.2.status = (if 0 < e.2.extraBudget then "helps_others" else "exact")) := by
  rw [calculateDistribution_results] at he
  obtain ⟨pa, hpa, rfl⟩ := List.mem_map.mp he
  dsimp only
  rw [step2Result_toDetail]
  constructor
  · intro hov
    exact step2Result_over _ _ _ hov
  · intro hz
    exact step2Result_under _ _ _ (by rw [hz]; exact lt_irrefl 0)

/-- Order from spec testable property 6: Alice 20, Bob 5, no fees. -/
def odAliceBob : OrderData := ⟨[("Alice", 20), ("Bob", 5)], 0, 0, 0⟩

/-- Default settings with a daily budget of 14. -/
def s14 : Settings := ⟨some 14⟩

/-- The Alice entry of the spec test 6 distribution. -/
def aliceEntry : String × ParticipantResult :=
  (calculateDistribution odAliceBob s14).results.get ⟨0, by with_unfolding_all decide⟩

/-- Witness for C1: the over-budget branch at the spec's own mutual-aid
test (Alice 20, Bob 5, budget 14): Alice's entry is in the results, is
over budget, and satisfies the Step 2 formulas. -/
theorem c1_step2_formula_witness :
    aliceEntry ∈ (calculateDistribution odAliceBob s14).results ∧
    0 < aliceEntry.2.overBudget ∧
    aliceEntry.2.budgetHelpReceived =
      round2 (helpFormula (calculateDistribution odAliceBob s14).breakdown.totalExtraBudget
        (calculateDistribution odAliceBob s14).breakdown.totalOverBudget
        aliceEntry.2.overBudget) :=
  ⟨List.get_mem _ _ _,
   by with_unfolding_all decide,
   ((c1_step2_formula odAliceBob s14 aliceEntry (List.get_mem _ _ _)).1
     (by with_unfolding_all decide)).1⟩

/-- Traversing with an everywhere-succeeding function succeeds with the map. -/
theorem optionTraverse_some (g : α → β) (l : List α) :
    optionTraverse (fun a => some (g a)) l = some (l.map g) := by
  induction l with
  | nil => rfl
  | cons a t ih => simp [optionTraverse, ih]

/-- The division-checked Step 2 never fails: the only division is under
the source's `totalOverBudget > 0` guard. -/
theorem step2Checked_eq (E D : ℚ) (d : Detail) :
    step2Checked E D d = some (step2Result E D d) := by
  unfold step2Checked step2Result
  by_cases h : 0 < d.overBudget
  · rw [if_pos h, if_pos h]
    by_cases hD : 0 < D
    · rw [if_pos hD, if_pos hD]
      unfold checkedDiv
      rw [if_neg (ne_of_gt hD)]
      rfl
    · rw [if_neg hD, if_neg hD]
      rfl
  · rw [if_neg h, if_neg h]

/-- The discount-share computation of the background calculator never
fails: its division sits under the `discount !== 0 && orderSubtotal > 0`
guard. -/
theorem bgEntryChecked_eq (budget extraPerPerson sub disc : ℚ) (pa : String × ℚ) :
    ((if disc ≠ 0 ∧ 0 < sub then (checkedDiv pa.2 sub).map fun r => r * disc
      else some 0).map fun discountShare =>
        (pa.1, round2 (max 0 (pa.2 + extraPerPerson + discountShare - budget)))) =
    some (pa.1, round2 (max 0 (pa.2 + extraPerPerson +
      (if disc ≠ 0 ∧ 0 < sub then pa.2 / sub * disc else 0) - budget))) := by
  by_cases h : disc ≠ 0 ∧ 0 < sub
  · rw [if_pos h, if_pos h]
    unfold checkedDiv
    rw [if_neg (ne_of_gt h.2)]
    rfl
  · rw [if_neg h, if_neg h]
    rfl

/-- C5: the distribution calculation never divides by zero on inputs
that reach it.  The division-checked clones — in which every JavaScript
division fails instead of producing `NaN`/`Infinity` — return exactly
the unchecked result: for the content script's `calculateDistribution`
whenever at least one participant is present (the state guaranteed by
the upstream validation), because the division by `totalOverBudget` sits
under the source's own `totalOverBudget > 0 ? … : 0` guard; and for the
background's `calculateOrderDistribution` unconditionally, because both
of its divisions are guarded (`length > 0 ? … : 0` and
`discount !== 0 && orderSubtotal > 0`). -/
theorem c5_division_guards :
    (∀ od s, od.people ≠ [] →
      calculateDistributionChecked od s = some (calculateDistribution od s)) ∧
    (∀ od s, calculateOrderDistributionChecked od s = some (calculateOrderDistribution od s)) := by
  constructor
  · intro od s hne
    have h0 : od.people.length ≠ 0 := fun h => hne (List.length_eq_zero.mp h)
    have hn : ((od.people.length : ℚ)) ≠ 0 := by exact_mod_cast h0
    unfold calculateDistributionChecked calculateDistribution
    simp only [checkedDiv, if_neg hn, Option.some_bind, step2Checked_eq, Option.map_some',
      optionTraverse_some, Option.map_some]
  · intro od s
    unfold calculateOrderDistributionChecked calculateOrderDistribution
    dsimp only
    by_cases hp : 0 < od.people.length
    · have hn : ((od.people.length : ℚ)) ≠ 0 := by
        exact_mod_cast Nat.pos_iff_ne_zero.mp hp
      have hdiv : checkedDiv (od.delivery + od.service) ((od.people.length : ℚ)) =
          some ((od.delivery + od.service) / ((od.people.length : ℚ))) := by
        unfold checkedDiv
        rw [if_neg hn]
      rw [if_pos hp, if_pos hp, hdiv]
      simp only [Option.some_bind, bgEntryChecked_eq, optionTraverse_some, Option.map_some']
    · rw [if_neg hp, if_neg hp]
      simp only [Option.some_bind, bgEntryChecked_eq, optionTraverse_some, Option.map_some']

/-- Witness for C5: the checked content-script calculator agrees with
the unchecked one on the non-empty Alice/Bob order. -/
theorem c5_division_guards_witness :
    odAliceBob.people ≠ [] ∧
    calculateDistributionChecked odAliceBob s14 = some (calculateDistribution odAliceBob s14) :=
  ⟨by with_unfolding_all decide, c5_division_guards.1 odAliceBob s14 (by with_unfolding_all decide)⟩

/-- C7: re-entrancy discipline of `calculateAndDisplay`.  (i) If a
calculation is in flight (`isCalculating` set), a further request
throws `Calculation already in progress` and mutates nothing — it is
neither queued nor run.  (ii) If no calculation is in flight, the
`finally` block leaves the flag cleared whether the run completes or
fails, so a subsequent request is not rejected.  (iii) A successful run
returns the distribution result and stores it in the shared state. -/
theorem c7_reentrancy (parseResult : Except String OrderData) (s : Settings)
    (st : ContentState) :
    (st.isCalculating = true →
      calculateAndDisplayStep parseResult s st =
        (.error "Calculation already in progress", st)) ∧
    (st.isCalculating = false →
      (calculateAndDisplayStep parseResult s st).2.isCalculating = false) ∧
    (st.isCalculating = false → ∀ od, parseResult = .ok od → od.people.length ≠ 0 →
      (calculateAndDisplayStep parseResult s st).1 = .ok (calculateDistribution od s) ∧
      (calculateAndDisplayStep parseResult s st).2.calculationResults =
        some (calculateDistribution od s)) := by
  refine ⟨?_, ?_, ?_⟩
  · intro h
    unfold calculateAndDisplayStep
    rw [if_pos h]
  · intro h
    unfold calculateAndDisplayStep
    rw [if_neg (by rw [h]; exact Bool.false_ne_true)]
    cases parseResult with
    | error e => rfl
    | ok od =>
      dsimp only
      by_cases hz : od.people.length = 0
      · rw [if_pos hz]
      · rw [if_neg hz]
  · intro h od hok hz
    subst hok
    unfold calculateAndDisplayStep
    rw [if_neg (by rw [h]; exact Bool.false_ne_true)]
    dsimp only
    rw [if_neg hz]
    exact ⟨rfl, rfl⟩

/-- A state with no calculation in flight. -/
def idleState : ContentState := ⟨false, none⟩

/-- Witness for C7: from the idle state, a request with a successfully
parsed non-empty order completes, returns the distribution result, and
leaves the flag cleared. -/
theorem c7_reentrancy_witness :
    idleState.isCalculating = false ∧
    (calculateAndDisplayStep (.ok odAliceBob) s14 idleState).2.isCalculating = false ∧
    (calculateAndDisplayStep (.ok odAliceBob) s14 idleState).1 =
      .ok (calculateDistribution odAliceBob s14) :=
  ⟨rfl,
   (c7_reentrancy (.ok odAliceBob) s14 idleState).2.1 rfl,
   ((c7_reentrancy (.ok odAliceBob) s14 idleState).2.2 rfl odAliceBob rfl
     (by with_unfolding_all decide)).1⟩

/-- An entry passing `validateOrderData`'s per-participant checks has a
finite, non-negative amount not exceeding 1000. -/
theorem validateEntry_ok {pa : String × JSVal} (h : validateEntry pa = .ok ()) :
    pa.2.isFiniteNonneg = true ∧ pa.2.gtB 1000 = false := by
  unfold validateEntry at h
  split at h
  · simp at h
  · split at h
    · simp at h
    · split at h
      · simp at h
      · rename_i h1 h2 h3
        cases hv : pa.2 with
        | num q =>
          rw [hv] at h2 h3
          have hq : ¬q < 0 := by
            intro hq
            exact h2 (by simp [JSVal.isNumberType, JSVal.isNaNB, JSVal.ltB, hq])
          have hgt : ¬(1000 : ℚ) < q := by
            intro hgt
            exact h3 (by simp [JSVal.gtB, hgt])
          simp [JSVal.isFiniteNonneg, JSVal.gtB, le_of_not_lt hq, hgt]
        | nan => rw [hv] at h2; simp [JSVal.isNaNB] at h2
        | inf => rw [hv] at h3; simp [JSVal.gtB] at h3
        | negInf => rw [hv] at h2; simp [JSVal.ltB] at h2
        | notNum => rw [hv] at h2; simp [JSVal.isNumberType] at h2

/-- If the validation loop accepts a people list, every entry passes. -/
theorem validatePeople_ok {l : List (String × JSVal)} (h : validatePeople l = .ok ()) :
    ∀ pa ∈ l, validateEntry pa = .ok () := by
  induction l with
  | nil => intro pa hpa; simp at hpa
  | cons a t ih =>
    intro pa hpa
    unfold validatePeople at h
    rcases List.mem_cons.mp hpa with rfl | hpa
    · cases hva : validateEntry pa with
      | error e => rw [hva] at h; simp at h
      | ok u => cases u; rfl
    · cases hva : validateEntry a with
      | error e => rw [hva] at h; simp at h
      | ok u => rw [hva] at h; exact ih h pa hpa

/-- C6: for every raw order whose people mapping is empty, or has more
than 50 participants, or contains an amount that is not a finite
non-negative number, or contains an amount above 1000, `validateOrderData`
throws a descriptive error, and the `calculateAndDisplay` pipeline
surfaces that same error without ever invoking the distribution
calculator (the `Except` short-circuits before `calculateDistribution`
is applied). -/
theorem c6_validation_rejects (r : RawOrderData) (s : Settings)
    (hbad : r.people = [] ∨ 50 < r.people.length ∨
      ∃ pa ∈ r.people, pa.2.isFiniteNonneg = false ∨ pa.2.gtB 1000 = true) :
    ∃ e, validateOrderData r = .error e ∧ calculateAndDisplayCore r s = .error e := by
  have hneq : validateOrderData r ≠ .ok () := by
    intro hok
    unfold validateOrderData at hok
    split at hok
    · simp at hok
    · split at hok
      · simp at hok
      · rename_i hlen h50
        rcases hbad with h | h | ⟨pa, hpa, hb⟩
        · exact hlen (by rw [h]; rfl)
        · exact h50 h
        · cases hvp : validatePeople r.people with
          | error e => rw [hvp] at hok; simp at hok
          | ok u =>
            cases u
            have h2 := validateEntry_ok (validatePeople_ok hvp pa hpa)
            rcases hb with hb | hb
            · rw [h2.1] at hb
              simp at hb
            · rw [h2.2] at hb
              simp at hb
  cases hval : validateOrderData r with
  | ok u =>
    cases u
    exact absurd hval hneq
  | error e =>
    refine ⟨e, rfl, ?_⟩
    unfold calculateAndDisplayCore
    rw [hval]

/-- A raw order with a negative amount. -/
def badRawOrder : RawOrderData := ⟨[("Bob", .num (-5))], none, none, none⟩

/-- Witness for C6: the negative-amount order is rejected before the
calculator runs. -/
theorem c6_validation_rejects_witness :
    (badRawOrder.people = [] ∨ 50 < badRawOrder.people.length ∨
      ∃ pa ∈ badRawOrder.people, pa.2.isFiniteNonneg = false ∨ pa.2.gtB 1000 = true) ∧
    ∃ e, validateOrderData badRawOrder = .error e ∧
      calculateAndDisplayCore badRawOrder s14 = .error e :=
  ⟨by with_unfolding_all decide,
   c6_validation_rejects badRawOrder s14 (by with_unfolding_all decide)⟩

/-! ## Association-list lookup lemmas -/

/-- A key absent from the key list is not found. -/
theorem lookup_eq_none_of_not_mem {β : Type} {l : List (String × β)} {k : String}
    (h : k ∉ l.map Prod.fst) : l.lookup k = none := by
  induction l with
  | nil => rfl
  | cons b t ih =>
    simp only [List.map_cons, List.mem_cons, not_or] at h
    simp only [List.lookup, beq_eq_false_iff_ne.mpr h.1]
    exact ih h.2

/-- A key found on the left of an append is found in the append. -/
theorem lookup_append_left {β : Type} {l₁ l₂ : List (String × β)} {k : String} {v : β}
    (h : l₁.lookup k = some v) : (l₁ ++ l₂).lookup k = some v := by
  induction l₁ with
  | nil => simp [List.lookup] at h
  | cons b t ih =>
    simp only [List.cons_append, List.lookup] at h ⊢
    cases hbk : k == b.1 with
    | true => simp only [hbk] at h ⊢; exact h
    | false => simp only [hbk] at h ⊢; exact ih h

/-- A key missing on the left of an append is looked up on the right. -/
theorem lookup_append_right {β : Type} {l₁ l₂ : List (String × β)} {k : String}
    (h : l₁.lookup k = none) : (l₁ ++ l₂).lookup k = l₂.lookup k := by
  induction l₁ with
  | nil => rfl
  | cons b t ih =>
    simp only [List.cons_append, List.lookup] at h ⊢
    cases hbk : k == b.1 with
    | true =>
      simp only [hbk] at h
      exact absurd h (by simp)
    | false => simp only [hbk] at h ⊢; exact ih h

/-- Looking up a participant's key in an entry list built by mapping
over a duplicate-free people list yields that participant's entry. -/
theorem lookup_map_entry {β : Type} (f : String × ℚ → β) :
    ∀ {l : List (String × ℚ)}, (l.map Prod.fst).Nodup →
      ∀ {pa : String × ℚ}, pa ∈ l →
        (l.map fun q => (q.1, f q)).lookup pa.1 = some (f pa) := by
  intro l
  induction l with
  | nil =>
    intro _ pa hpa
    simp at hpa
  | cons b t ih =>
    intro hnd pa hpa
    have hnd' : b.1 ∉ t.map Prod.fst ∧ (t.map Prod.fst).Nodup := by
      rw [List.map_cons, List.nodup_cons] at hnd
      exact hnd
    rcases List.mem_cons.mp hpa with rfl | hpa
    · simp [List.lookup]
    · have hb : pa.1 ≠ b.1 := by
        intro he
        exact hnd'.1 (he ▸ List.mem_map.mpr ⟨pa, hpa, rfl⟩)
      simp only [List.map_cons, List.lookup, beq_eq_false_iff_ne.mpr hb]
      exact ih hnd'.2 hpa

/-! ## The alternative ("proportional") distribution -/

/-- Modelled from the spec: the claim's proportional split — the excess
`grandTotal - totalBudget` multiplied by a participant's individual
order share of the order subtotal. -/
def claimedProportionalShare (od : OrderData) (s : Settings) (amt : ℚ) : ℚ :=
  ((od.people.map Prod.snd).sum + od.delivery + od.service + od.discount -
    resolveBudget s * od.people.length) * (amt / (od.people.map Prod.snd).sum)

/-- The per-participant entry list actually built by
`calculateAlternativeDistribution` in its over-budget branch: each
participant's own overage above budget (order + equal fee share +
proportional discount − budget, clamped at 0, rounded). -/
def altBase (od : OrderData) (s : Settings) : List (String × ℚ) :=
  od.people.map fun pa =>
    (pa.1, round2 (max 0 (pa.2 + (od.delivery + od.service) / od.people.length +
      (if od.discount ≠ 0 ∧ 0 < (od.people.map Prod.snd).sum
        then pa.2 / (od.people.map Prod.snd).sum * od.discount else 0) -
      resolveBudget s)))

/-- The `remaining` amount of the over-budget branch: the excess minus
the sum of the per-participant overage entries. -/
def altRemaining (od : OrderData) (s : Settings) : ℚ :=
  ((od.people.map Prod.snd).sum + od.delivery + od.service + od.discount -
    resolveBudget s * od.people.length) - ((altBase od s).map Prod.snd).sum

/-- `calculateAlternativeDistribution`, over-budget branch, rewritten
through `altBase` and `altRemaining`. -/
theorem calcAlt_over (od : OrderData) (s : Settings)
    (h : ¬((od.people.map Prod.snd).sum + od.delivery + od.service + od.discount ≤
      resolveBudget s * od.people.length)) :
    calculateAlternativeDistribution od s =
      if 0 < altRemaining od s then
        altBase od s ++ [("You (Order Creator)", round2 (altRemaining od s))]
      else altBase od s := by
  unfold calculateAlternativeDistribution
  rw [if_neg h]
  rfl

/-- The keys of `altBase` are the participant names. -/
theorem altBase_keys (od : OrderData) (s : Settings) :
    (altBase od s).map Prod.fst = od.people.map Prod.fst := by
  unfold altBase
  rw [List.map_map]
  rfl

/-- An order A: 2, B: 8 with no fees. -/
def odAB2 : OrderData := ⟨[("A", 2), ("B", 8)], 0, 0, 0⟩

/-- Settings with a daily budget of 3. -/
def s3 : Settings := ⟨some 3⟩

/-- C8 counterexample: with `people = {A: 2, B: 8}`, no fees and budget
3, the grand total 10 exceeds the total budget 6, so by the claim the
excess 4 should be split proportionally to order share — A paying
`4 * (2/10) = 0.8`.  The code instead assigns A its own overage
`max(0, 2 - 3) = 0`, and the participant entries sum to 5, not to the
excess 4 — the claimed proportional-split property is false. -/
theorem c8_proportional_counterexample :
    resolveBudget s3 * odAB2.people.length <
      (odAB2.people.map Prod.snd).sum + odAB2.delivery + odAB2.service + odAB2.discount ∧
    (calculateAlternativeDistribution odAB2 s3).lookup "A" = some 0 ∧
    claimedProportionalShare odAB2 s3 2 = 4 / 5 ∧
    round2 (claimedProportionalShare odAB2 s3 2) = 4 / 5 ∧
    (0 : ℚ) ≠ 4 / 5 ∧
    ((calculateAlternativeDistribution odAB2 s3).map Prod.snd).sum = 5 ∧
    (odAB2.people.map Prod.snd).sum + odAB2.delivery + odAB2.service + odAB2.discount -
      resolveBudget s3 * odAB2.people.length = 4 := by
  refine ⟨?_, ?_, ?_, ?_, ?_, ?_, ?_⟩ <;> with_unfolding_all decide

/-- C8 amended: in the alternative distribution, when the grand total is
within the total budget every participant's entry is `0`; when it
exceeds the budget, each participant pays the 2-decimal rounding of
their own overage `max(0, order + (delivery+service)/n + proportional
discount − budget)` (not a proportional share of the excess), and the
leftover `excess − Σ entries` is assigned to a synthetic
`You (Order Creator)` entry only when it is positive. -/
theorem c8_alternative_amended (od : OrderData) (s : Settings)
    (hnodup : (od.people.map Prod.fst).Nodup)
    (hnc : "You (Order Creator)" ∉ od.people.map Prod.fst) :
    ((od.people.map Prod.snd).sum + od.delivery + od.service + od.discount ≤
        resolveBudget s * od.people.length →
      calculateAlternativeDistribution od s = od.people.map fun pa => (pa.1, (0 : ℚ))) ∧
    (resolveBudget s * od.people.length <
        (od.people.map Prod.snd).sum + od.delivery + od.service + od.discount →
      (∀ pa ∈ od.people,
        (calculateAlternativeDistribution od s).lookup pa.1 =
          some (round2 (max 0 (pa.2 + (od.delivery + od.service) / od.people.length +
            (if od.discount ≠ 0 ∧ 0 < (od.people.map Prod.snd).sum
              then pa.2 / (od.people.map Prod.snd).sum * od.discount else 0) -
            resolveBudget s)))) ∧
      (0 < altRemaining od s →
        (calculateAlternativeDistribution od s).lookup "You (Order Creator)" =
          some (round2 (altRemaining od s))) ∧
      (¬0 < altRemaining od s →
        "You (Order Creator)" ∉ (calculateAlternativeDistribution od s).map Prod.fst)) := by
  constructor
  · intro hle
    unfold calculateAlternativeDistribution
    rw [if_pos hle]
  · intro hgt
    rw [calcAlt_over od s (not_le.mpr hgt)]
    by_cases hrem : 0 < altRemaining od s
    · rw [if_pos hrem]
      refine ⟨?_, ?_, ?_⟩
      · intro pa hpa
        exact lookup_append_left (lookup_map_entry _ hnodup hpa)
      · intro _
        rw [lookup_append_right (lookup_eq_none_of_not_mem (altBase_keys od s ▸ hnc))]
        simp [List.lookup]
      · intro hr
        exact absurd hrem hr
    · rw [if_neg hrem]
      refine ⟨?_, ?_, ?_⟩
      · intro pa hpa
        exact lookup_map_entry _ hnodup hpa
      · intro hr
        exact absurd hr hrem
      · intro _
        rw [altBase_keys od s]
        exact hnc

/-- Witness for C8 amended: at the A/B order with budget 3, A's entry is
its own (zero) overage. -/
theorem c8_alternative_amended_witness :
    (odAB2.people.map Prod.fst).Nodup ∧
    "You (Order Creator)" ∉ odAB2.people.map Prod.fst ∧
    (calculateAlternativeDistribution odAB2 s3).lookup "A" = some 0 :=
  ⟨by with_unfolding_all decide, by with_unfolding_all decide,
    (((c8_alternative_amended odAB2 s3 (by with_unfolding_all decide)
        (by with_unfolding_all decide)).2 (by with_unfolding_all decide)).1
      ("A", 2) (by with_unfolding_all decide)).trans (by with_unfolding_all decide)⟩

/-! ## Numeric policy: rounded vs unrounded intermediates -/

/-- `sharedCostsPerPerson` as a standalone function. -/
def sppOf (od : OrderData) : ℚ :=
  (od.delivery + od.service + od.discount) / od.people.length

/-- A participant's *unrounded* over-budget amount. -/
def unroundedOver (od : OrderData) (s : Settings) (pa : String × ℚ) : ℚ :=
  max 0 (pa.2 + sppOf od - resolveBudget s)

/-- A participant's *unrounded* extra-budget amount. -/
def unroundedExtra (od : OrderData) (s : Settings) (pa : String × ℚ) : ℚ :=
  max 0 (resolveBudget s - (pa.2 + sppOf od))

/-- Modelled from the spec's numeric policy ("intermediate accumulation
(Step 1–2) should use unrounded values …; round only at presentation
boundaries"): the reported final payment of a participant when Step 2
is computed entirely from unrounded intermediates and 2-decimal rounding
is applied only at the reporting boundary. -/
def specFinalPaymentUnrounded (od : OrderData) (s : Settings) (pa : String × ℚ) : ℚ :=
  round2 (paymentFormula (totalExtraOf (resolveBudget s) (sppOf od) od.people)
    (totalOverOf (resolveBudget s) (sppOf od) od.people) (unroundedOver od s pa))

/-- The `totalOverBudget` accumulator is the plain sum of the unrounded
per-participant over-budget amounts (the positivity guard only skips
zero summands). -/
theorem totalOverOf_eq (budget spp : ℚ) (people : List (String × ℚ)) :
    totalOverOf budget spp people =
      (people.map fun pa => max 0 (pa.2 + spp - budget)).sum := by
  unfold totalOverOf
  exact congrArg List.sum (List.map_congr_left fun pa _ => if_pos_max _)

/-- The `totalExtraBudget` accumulator is the plain sum of the unrounded
per-participant extra-budget amounts. -/
theorem totalExtraOf_eq (budget spp : ℚ) (people : List (String × ℚ)) :
    totalExtraOf budget spp people =
      (people.map fun pa => max 0 (budget - (pa.2 + spp))).sum := by
  unfold totalExtraOf
  exact congrArg List.sum (List.map_congr_left fun pa _ => if_pos_max _)

/-- An order whose You amount 14.006 has a third-decimal over-budget
residue. -/
def odRound : OrderData := ⟨[("You", 7003 / 500), ("Bob", 15), ("Carol", 27 / 2)], 0, 0, 0⟩

set_option maxRecDepth 8000 in
/-- C3 counterexample: with `people = {You: 14.006, Bob: 15, Carol: 13.5}`,
no fees and budget 14, the code stores You's overBudget rounded to 0.01
and feeds that into Step 2, reporting finalPayment 0.01; computing
Step 2 entirely from the unrounded intermediates (overBudget 0.006) and
rounding only at the reporting boundary yields 0.00 instead.  Moreover
the reported breakdown figure `totalOverBudget = 1.006` is not rounded
at the point of reporting (it differs from its own 2-decimal rounding). -/
theorem c3_rounding_counterexample :
    ((calculateDistribution odRound s14).results.map fun e =>
      (e.1, e.2.finalPayment)).lookup "You" = some (1 / 100) ∧
    specFinalPaymentUnrounded odRound s14 ("You", 7003 / 500) = 0 ∧
    (1 : ℚ) / 100 ≠ 0 ∧
    (calculateDistribution odRound s14).breakdown.totalOverBudget = 503 / 500 ∧
    round2 ((calculateDistribution odRound s14).breakdown.totalOverBudget) ≠
      (calculateDistribution odRound s14).breakdown.totalOverBudget := by
  refine ⟨?_, ?_, ?_, ?_, ?_⟩ <;> with_unfolding_all decide

/-- C3 amended: the totals `totalOverBudget`/`totalExtraBudget` are
accumulated from unrounded values and reported unrounded (no 2-decimal
rounding at the breakdown boundary); but the per-participant
`overBudget`/`extraBudget` values fed into the Step 2 budget-sharing
pass are the already-rounded stored fields (`round2` of the unrounded
amounts), and each participant's reported `budgetHelpReceived` and
`finalPayment` is the 2-decimal rounding of the Step 2 value computed
from those rounded fields together with the unrounded totals. -/
theorem c3_rounding_amended (od : OrderData) (s : Settings) :
    (calculateDistribution od s).breakdown.totalOverBudget =
      (od.people.map fun pa => unroundedOver od s pa).sum ∧
    (calculateDistribution od s).breakdown.totalExtraBudget =
      (od.people.map fun pa => unroundedExtra od s pa).sum ∧
    ((calculateDistribution od s).results.map fun e => e.2.overBudget) =
      (od.people.map fun pa => round2 (unroundedOver od s pa)) ∧
    ((calculateDistribution od s).results.map fun e => e.2.extraBudget) =
      (od.people.map fun pa => round2 (unroundedExtra od s pa)) ∧
    (∀ e ∈ (calculateDistribution od s).results,
      e.2.budgetHelpReceived =
        (if 0 < e.2.overBudget then
          round2 (helpFormula (calculateDistribution od s).breakdown.totalExtraBudget
            (calculateDistribution od s).breakdown.totalOverBudget e.2.overBudget)
         else 0) ∧
      e.2.finalPayment =
        (if 0 < e.2.overBudget then
          round2 (paymentFormula (calculateDistribution od s).breakdown.totalExtraBudget
            (calculateDistribution od s).breakdown.totalOverBudget e.2.overBudget)
         else 0)) := by
  refine ⟨totalOverOf_eq _ _ _, totalExtraOf_eq _ _ _, ?_, ?_, ?_⟩
  · rw [calculateDistribution_results, List.map_map]
    refine List.map_congr_left fun pa _ => ?_
    show (step2Result _ _ _).overBudget = _
    rw [step2Result_toDetail]
    rfl
  · rw [calculateDistribution_results, List.map_map]
    refine List.map_congr_left fun pa _ => ?_
    show (step2Result _ _ _).extraBudget = _
    rw [step2Result_toDetail]
    rfl
  · intro e he
    rw [calculateDistribution_results] at he
    obtain ⟨pa, hpa, rfl⟩ := List.mem_map.mp he
    dsimp only
    rw [step2Result_toDetail]
    by_cases h : 0 < (detailOf (resolveBudget s)
        (calculateDistribution od s).breakdown.sharedCostsPerPerson
        (calculateDistribution od s).orderCreator pa).overBudget
    · have hs := step2Result_over (calculateDistribution od s).breakdown.totalExtraBudget
        (calculateDistribution od s).breakdown.totalOverBudget _ h
      rw [if_pos h, if_pos h]
      exact ⟨hs.1, hs.2.1⟩
    · have hs := step2Result_under (calculateDistribution od s).breakdown.totalExtraBudget
        (calculateDistribution od s).breakdown.totalOverBudget _ h
      rw [if_neg h, if_neg h]
      exact ⟨hs.1, hs.2.1⟩

/-- Witness for C3 amended: the Step 2 fields of Alice's entry in the
spec's mutual-aid test are the roundings of the formulas applied to the
stored (rounded) overBudget field. -/
theorem c3_rounding_amended_witness :
    aliceEntry ∈ (calculateDistribution odAliceBob s14).results ∧
    aliceEntry.2.budgetHelpReceived =
      (if 0 < aliceEntry.2.overBudget then
        round2 (helpFormula (calculateDistribution odAliceBob s14).breakdown.totalExtraBudget
          (calculateDistribution odAliceBob s14).breakdown.totalOverBudget
          aliceEntry.2.overBudget)
       else 0) :=
  ⟨List.get_mem _ _ _,
   ((c3_rounding_amended odAliceBob s14).2.2.2.2 aliceEntry (List.get_mem _ _ _)).1⟩

/-! ## Conservation bounds -/

/-- The stored overBudget field is the rounding of the unrounded amount. -/
theorem detailOf_overBudget (budget spp : ℚ) (creator : Option String) (pa : String × ℚ) :
    (detailOf budget spp creator pa).overBudget = round2 (max 0 (pa.2 + spp - budget)) := rfl

/-- Rounding zero gives zero. -/
theorem round2_zero : round2 0 = 0 := by
  unfold round2
  rw [mul_zero, round_zero]
  norm_num

/-- The Step 2 help value is non-negative whenever pool, shortfall total
and the participant's shortfall are. -/
theorem helpFormula_nonneg {E D ob : ℚ} (hE : 0 ≤ E) (hD : 0 ≤ D) (hob : 0 ≤ ob) :
    0 ≤ helpFormula E D ob := by
  unfold helpFormula
  refine le_min hob (mul_nonneg hE ?_)
  by_cases h : 0 < D
  · rw [if_pos h]
    exact div_nonneg hob hD
  · rw [if_neg h]

/-- The Step 2 final payment never exceeds the (stored) shortfall. -/
theorem paymentFormula_le_ob {E D ob : ℚ} (hE : 0 ≤ E) (hD : 0 ≤ D) (hob : 0 ≤ ob) :
    paymentFormula E D ob ≤ ob := by
  unfold paymentFormula
  refine max_le hob ?_
  have := helpFormula_nonneg hE hD hob
  linarith

/-- Reported final payment exceeds the unrounded shortfall by at most a
cent (two successive half-up roundings). -/
theorem step2_fp_bound (E D : ℚ) (d : Detail) (ov : ℚ) (hE : 0 ≤ E) (hD : 0 ≤ D)
    (hd : d.overBudget = round2 ov) (hov : 0 ≤ ov) :
    (step2Result E D d).finalPayment ≤ ov + 1 / 100 := by
  have hob0 : 0 ≤ d.overBudget := hd ▸ round2_nonneg hov
  have hoble : d.overBudget ≤ ov + 1 / 200 := hd ▸ round2_le ov
  by_cases h : 0 < d.overBudget
  · rw [(step2Result_over E D d h).2.1]
    have h1 : paymentFormula E D d.overBudget ≤ d.overBudget := paymentFormula_le_ob hE hD hob0
    have h2 := round2_le (paymentFormula E D d.overBudget)
    linarith
  · rw [(step2Result_under E D d h).2.1]
    linarith

/-- Reported help exceeds the unrounded shortfall by at most a cent. -/
theorem step2_bh_bound (E D : ℚ) (d : Detail) (ov : ℚ)
    (hd : d.overBudget = round2 ov) (hov : 0 ≤ ov) :
    (step2Result E D d).budgetHelpReceived ≤ ov + 1 / 100 := by
  have hoble : d.overBudget ≤ ov + 1 / 200 := hd ▸ round2_le ov
  by_cases h : 0 < d.overBudget
  · rw [(step2Result_over E D d h).1]
    have h1 : helpFormula E D d.overBudget ≤ d.overBudget := min_le_left _ _
    have h2 := round2_le (helpFormula E D d.overBudget)
    linarith
  · rw [(step2Result_under E D d h).1]
    linarith

/-- When the pool does not exceed the total shortfall, reported help
exceeds the participant's proportional share by at most a cent. -/
theorem step2_bh_bound_le (E D : ℚ) (d : Detail) (ov : ℚ) (hE : 0 ≤ E) (hD : 0 < D)
    (hED : E ≤ D) (hd : d.overBudget = round2 ov) (hov : 0 ≤ ov) :
    (step2Result E D d).budgetHelpReceived ≤ E / D * ov + 1 / 100 := by
  have hoble : d.overBudget ≤ ov + 1 / 200 := hd ▸ round2_le ov
  have hEDnn : 0 ≤ E / D := div_nonneg hE hD.le
  by_cases h : 0 < d.overBudget
  · rw [(step2Result_over E D d h).1]
    have h1 : helpFormula E D d.overBudget ≤ E * (d.overBudget / D) := by
      unfold helpFormula
      rw [if_pos hD]
      exact min_le_right _ _
    have h2 : E * (d.overBudget / D) = E / D * d.overBudget := by ring
    have h3 : E / D * d.overBudget ≤ E / D * (ov + 1 / 200) :=
      mul_le_mul_of_nonneg_left hoble hEDnn
    have h4 : E / D ≤ 1 := (div_le_one hD).mpr hED
    have h5 : E / D * (ov + 1 / 200) = E / D * ov + E / D * (1 / 200) := by ring
    have h6 : E / D * (1 / 200) ≤ 1 / 200 := by
      calc E / D * (1 / 200) ≤ 1 * (1 / 200) :=
            mul_le_mul_of_nonneg_right h4 (by norm_num)
        _ = 1 / 200 := one_mul _
    have h7 := round2_le (helpFormula E D d.overBudget)
    linarith
  · rw [(step2Result_under E D d h).1]
    have := mul_nonneg hEDnn hov
    linarith

/-- Sum of a constant-shifted map. -/
theorem sum_map_add_const {α : Type} (l : List α) (f : α → ℚ) (c : ℚ) :
    (l.map fun a => f a + c).sum = (l.map f).sum + l.length * c := by
  induction l with
  | nil => simp
  | cons a t ih =>
    simp only [List.map_cons, List.sum_cons, ih, List.length_cons]
    push_cast
    ring

/-- Sum of a left-scaled map. -/
theorem sum_map_mul_left' {α : Type} (l : List α) (f : α → ℚ) (c : ℚ) :
    (l.map fun a => c * f a).sum = c * (l.map f).sum := by
  induction l with
  | nil => simp
  | cons a t ih =>
    simp only [List.map_cons, List.sum_cons, ih]
    ring

/-- Core conservation bound for Step 2 over a participant list: the
reported final payments sum to at most `totalOverBudget` plus a cent per
participant, and the reported help sums to at most `totalExtraBudget`
plus a cent per participant. -/
theorem conservation_core (people : List (String × ℚ)) (budget spp : ℚ)
    (creator : Option String) :
    ((people.map fun pa =>
      (step2Result (totalExtraOf budget spp people) (totalOverOf budget spp people)
        (detailOf budget spp creator pa)).finalPayment).sum ≤
      totalOverOf budget spp people + people.length * (1 / 100)) ∧
    ((people.map fun pa =>
      (step2Result (totalExtraOf budget spp people) (totalOverOf budget spp people)
        (detailOf budget spp creator pa)).budgetHelpReceived).sum ≤
      totalExtraOf budget spp people + people.length * (1 / 100)) := by
  have hDsum : totalOverOf budget spp people =
      (people.map fun pa => max 0 (pa.2 + spp - budget)).sum := totalOverOf_eq _ _ _
  have hEsum : totalExtraOf budget spp people =
      (people.map fun pa => max 0 (budget - (pa.2 + spp))).sum := totalExtraOf_eq _ _ _
  have hmemnn : ∀ x ∈ people.map fun pa => max 0 (pa.2 + spp - budget), (0 : ℚ) ≤ x := by
    intro x hx
    obtain ⟨pa, _, rfl⟩ := List.mem_map.mp hx
    exact le_max_left _ _
  have hD0 : 0 ≤ totalOverOf budget spp people := by
    rw [hDsum]
    exact List.sum_nonneg hmemnn
  have hE0 : 0 ≤ totalExtraOf budget spp people := by
    rw [hEsum]
    refine List.sum_nonneg ?_
    intro x hx
    obtain ⟨pa, _, rfl⟩ := List.mem_map.mp hx
    exact le_max_left _ _
  constructor
  · calc (people.map fun pa =>
          (step2Result (totalExtraOf budget spp people) (totalOverOf budget spp people)
            (detailOf budget spp creator pa)).finalPayment).sum
        ≤ (people.map fun pa => max 0 (pa.2 + spp - budget) + 1 / 100).sum := by
          refine List.sum_le_sum fun pa _ => ?_
          exact step2_fp_bound _ _ _ _ hE0 hD0 (detailOf_overBudget _ _ _ _) (le_max_left _ _)
      _ = (people.map fun pa => max 0 (pa.2 + spp - budget)).sum +
            people.length * (1 / 100) := sum_map_add_const _ _ _
      _ = totalOverOf budget spp people + people.length * (1 / 100) := by rw [← hDsum]
  · rcases eq_or_lt_of_le hD0 with hDz | hDpos
    · have hzero : ∀ pa ∈ people,
          (step2Result (totalExtraOf budget spp people) (totalOverOf budget spp people)
            (detailOf budget spp creator pa)).budgetHelpReceived = 0 := by
        intro pa hpa
        have hle : max 0 (pa.2 + spp - budget) ≤ totalOverOf budget spp people := by
          rw [hDsum]
          exact List.single_le_sum hmemnn _ (List.mem_map.mpr ⟨pa, hpa, rfl⟩)
        have hov0 : max 0 (pa.2 + spp - budget) = 0 :=
          le_antisymm (hle.trans hDz.symm.le) (le_max_left _ _)
        have hdz : (detailOf budget spp creator pa).overBudget = 0 := by
          rw [detailOf_overBudget, hov0, round2_zero]
        exact (step2Result_under _ _ _ (by rw [hdz]; exact lt_irrefl 0)).1
      have hsz : (people.map fun pa =>
          (step2Result (totalExtraOf budget spp people) (totalOverOf budget spp people)
            (detailOf budget spp creator pa)).budgetHelpReceived).sum = 0 := by
        refine List.sum_eq_zero ?_
        intro x hx
        obtain ⟨pa, hpa, rfl⟩ := List.mem_map.mp hx
        exact hzero pa hpa
      rw [hsz]
      have : (0 : ℚ) ≤ (people.length : ℚ) * (1 / 100) := by positivity
      linarith
    · rcases le_or_lt (totalExtraOf budget spp people) (totalOverOf budget spp people)
        with hED | hED
      · calc (people.map fun pa =>
              (step2Result (totalExtraOf budget spp people) (totalOverOf budget spp people)
                (detailOf budget spp creator pa)).budgetHelpReceived).sum
            ≤ (people.map fun pa =>
                totalExtraOf budget spp people / totalOverOf budget spp people *
                  max 0 (pa.2 + spp - budget) + 1 / 100).sum := by
              refine List.sum_le_sum fun pa _ => ?_
              exact step2_bh_bound_le _ _ _ _ hE0 hDpos hED
                (detailOf_overBudget _ _ _ _) (le_max_left _ _)
          _ = (people.map fun pa =>
                totalExtraOf budget spp people / totalOverOf budget spp people *
                  max 0 (pa.2 + spp - budget)).sum + people.length * (1 / 100) :=
              sum_map_add_const _ _ _
          _ = totalExtraOf budget spp people / totalOverOf budget spp people *
                (people.map fun pa => max 0 (pa.2 + spp - budget)).sum +
                people.length * (1 / 100) := by rw [sum_map_mul_left']
          _ = totalExtraOf budget spp people / totalOverOf budget spp people *
                totalOverOf budget spp people + people.length * (1 / 100) := by rw [← hDsum]
          _ = totalExtraOf budget spp people + people.length * (1 / 100) := by
              rw [div_mul_cancel₀ _ (ne_of_gt hDpos)]
      · calc (people.map fun pa =>
              (step2Result (totalExtraOf budget spp people) (totalOverOf budget spp people)
                (detailOf budget spp creator pa)).budgetHelpReceived).sum
            ≤ (people.map fun pa => max 0 (pa.2 + spp - budget) + 1 / 100).sum := by
              refine List.sum_le_sum fun pa _ => ?_
              exact step2_bh_bound _ _ _ _
                (detailOf_overBudget _ _ _ _) (le_max_left _ _)
          _ = (people.map fun pa => max 0 (pa.2 + spp - budget)).sum +
                people.length * (1 / 100) := sum_map_add_const _ _ _
          _ = totalOverOf budget spp people + people.length * (1 / 100) := by rw [← hDsum]
          _ ≤ totalExtraOf budget spp people + people.length * (1 / 100) := by linarith

/-- An order You 15, Bob 15, Carol 13.99 with no fees. -/
def odConserve : OrderData := ⟨[("You", 15), ("Bob", 15), ("Carol", 1399 / 100)], 0, 0, 0⟩

/-- C2 counterexample: with `people = {You: 15, Bob: 15, Carol: 13.99}`,
no fees and budget 14 — a valid input with non-negative 2-decimal
amounts — Carol's pooled extra budget is `totalExtraBudget = 0.01`, but
You and Bob are each granted help `0.005` which reports (half-up) as
`0.01` each: the reported `budgetHelpReceived` sums to `0.02`, exceeding
`totalExtraBudget`.  The claimed conservation inequality is false. -/
theorem c2_conservation_counterexample :
    (odConserve.people ≠ [] ∧ (∀ pa ∈ odConserve.people, 0 ≤ pa.2) ∧
      0 ≤ resolveBudget s14) ∧
    ((calculateDistribution odConserve s14).results.map fun e =>
      e.2.budgetHelpReceived).sum = 1 / 50 ∧
    (calculateDistribution odConserve s14).breakdown.totalExtraBudget = 1 / 100 ∧
    ¬(((calculateDistribution odConserve s14).results.map fun e =>
        e.2.budgetHelpReceived).sum ≤
      (calculateDistribution odConserve s14).breakdown.totalExtraBudget) := by
  refine ⟨⟨?_, ?_, ?_⟩, ?_, ?_, ?_⟩ <;> with_unfolding_all decide

/-- C2 amended: conservation holds up to the documented reporting
rounding — for every input (valid ones in particular), the reported
final payments sum to at most `totalOverBudget` plus one cent per
participant, and the reported help sums to at most `totalExtraBudget`
plus one cent per participant.  (The unrounded Step 2 values satisfy the
same bounds with half the slack; the counterexample shows the slack
cannot be dropped.) -/
theorem c2_conservation_slack (od : OrderData) (s : Settings) :
    (((calculateDistribution od s).results.map fun e => e.2.finalPayment).sum ≤
      (calculateDistribution od s).breakdown.totalOverBudget +
        ((calculateDistribution od s).breakdown.participantCount : ℚ) * (1 / 100)) ∧
    (((calculateDistribution od s).results.map fun e => e.2.budgetHelpReceived).sum ≤
      (calculateDistribution od s).breakdown.totalExtraBudget +
        ((calculateDistribution od s).breakdown.participantCount : ℚ) * (1 / 100)) := by
  have h := conservation_core od.people (resolveBudget s)
    ((od.delivery + od.service + od.discount) / od.people.length)
    (findOrderCreator (od.people.map Prod.fst))
  constructor
  · calc ((calculateDistribution od s).results.map fun e => e.2.finalPayment).sum
        = (od.people.map fun pa =>
            (step2Result (totalExtraOf (resolveBudget s)
                ((od.delivery + od.service + od.discount) / od.people.length) od.people)
              (totalOverOf (resolveBudget s)
                ((od.delivery + od.service + od.discount) / od.people.length) od.people)
              (detailOf (resolveBudget s)
                ((od.delivery + od.service + od.discount) / od.people.length)
                (findOrderCreator (od.people.map Prod.fst)) pa)).finalPayment).sum := by
          rw [calculateDistribution_results, List.map_map]
          rfl
      _ ≤ _ := h.1
  · calc ((calculateDistribution od s).results.map fun e => e.2.budgetHelpReceived).sum
        = (od.people.map fun pa =>
            (step2Result (totalExtraOf (resolveBudget s)
                ((od.delivery + od.service + od.discount) / od.people.length) od.people)
              (totalOverOf (resolveBudget s)
                ((od.delivery + od.service + od.discount) / od.people.length) od.people)
              (detailOf (resolveBudget s)
                ((od.delivery + od.service + od.discount) / od.people.length)
                (findOrderCreator (od.people.map Prod.fst)) pa)).budgetHelpReceived).sum := by
          rw [calculateDistribution_results, List.map_map]
          rfl
      _ ≤ _ := h.2

end GroupOrder
